import Mathlib

/-!
Verification development for the splunk2am webhook translator.

The program's live handler is `HandleSplunkWebhook` in `pkg/alertmanager`
(the current file, not the archived variants): it decodes a Splunk webhook
payload, extracts a trigger time from the result map's `_time` entry,
optionally computes an `EndsAt` from the configured duration, builds a label
map from a fixed allow-list plus configured additional keys, attaches fixed
`summary`/`link` annotations, and forwards one Alertmanager v2 alert by
HTTP POST, relaying the outcome to the caller.

Modelling conventions:
* JSON values decoded by `encoding/json` into `interface\x7b\x7d` are the
  inductive `GoValue`; numbers carry an `Int` payload (Go stores `float64`,
  but the handler only ever asks whether a value is a string, so the
  numeric payload is never inspected).
* Go maps are association lists queried through `mapGet`/`smapGet`; the
  handler never iterates a map, it only indexes, so list order is inert.
* `time.Time` values are `Int` nanoseconds since the Unix epoch;
  `time.Unix(sec, 0)` is `timeUnix`, `Time.Add` is integer addition.
* Machine integers are `Nat`/`Int` with the explicit cutoff checks that
  `strconv.ParseInt` and `time.ParseDuration` perform on `int64`/`uint64`.
* The HTTP surface is explicit: the request body after `json.Unmarshal` is
  an `Option SplunkPayload` (`none` = read/parse failure, which is what Go
  reports for an empty or malformed body), and the destination's answer to
  the single POST is an `Option (Nat × String)` (`none` = transport
  failure, `some (status, body)` = an HTTP response).  The wall clock at
  receipt is passed in as a parameter so that statements about it can be
  made; the live handler never reads it.
-/

namespace Splunk2am

/-- A JSON value as decoded by Go's `encoding/json` into `interface\x7b\x7d`. -/
inductive GoValue where
  | vstr (s : String)
  | vnum (x : Int)
  | vbool (b : Bool)
  | vnull
  | varr (xs : List GoValue)
  | vobj (kvs : List (String × GoValue))

/-- Whether a decoded JSON value is a string (Go type assertion `.(string)`). -/
def GoValue.isStr : GoValue → Bool
  | .vstr _ => true
  | _ => false

/-- Indexing a Go `map[string]interface\x7b\x7d`: first binding of the key. -/
def mapGet : List (String × GoValue) → String → Option GoValue
  | [], _ => none
  | kv :: rest, k => if kv.1 = k then some kv.2 else mapGet rest k

/-- Indexing a Go `map[string]string`. -/
def smapGet : List (String × String) → String → Option String
  | [], _ => none
  | kv :: rest, k => if kv.1 = k then some kv.2 else smapGet rest k

/-- Go map assignment `m[k] = v`: replace the binding if present, else add it. -/
def smapSet : List (String × String) → String → String → List (String × String)
  | [], k, v => [(k, v)]
  | kv :: rest, k, v => if kv.1 = k then (k, v) :: rest else kv :: smapSet rest k v

/-- `value, ok := result[key]; strVal, ok := value.(string)` — the combined
map-index-and-string-assertion the handler performs on every result key it
touches (a missing key indexes to the nil interface, whose assertion fails). -/
def strLookup (result : List (String × GoValue)) (k : String) : Option String :=
  match mapGet result k with
  | some (GoValue.vstr s) => some s
  | _ => none

/-- `config.Config` (pkg/config/config.go).  Field defaults mirror the flag
defaults, including `strings.Split("", ",") = [""]` for `--add-labels` and
the default `"ann."` for `-p` — a field the live handler never reads. -/
structure Config where
  alertmanagerURL : String := "http://localhost:9093"
  bindAddress : String := "localhost:8080"
  logLevel : String := "info"
  logFormat : String := "text"
  endsAtDuration : String := ""
  additionalLabels : List String := [""]
  annotationPrefix : String := "ann."

/-- `SplunkPayload` — the decoded inbound webhook body. -/
structure SplunkPayload where
  sid : String := ""
  searchName : String := ""
  app : String := ""
  owner : String := ""
  resultsLink : String := ""
  result : List (String × GoValue) := []

/-- `V2Alert` — one alert of the Alertmanager v2 payload.  Times are `Int`
nanoseconds since the Unix epoch. -/
structure V2Alert where
  status : String
  labels : List (String × String)
  annotations : List (String × String)
  startsAt : Int
  endsAt : Option Int
  generatorURL : String

/-- `time.Unix(sec, 0)` as nanoseconds since the epoch. -/
def timeUnix (sec : Int) : Int := sec * 1000000000

/-- `strconv.ParseInt(s, 10, 64)` returning `some` exactly when Go returns a
nil error: an optional sign, at least one decimal digit, nothing else, and a
value within the signed 64-bit range (out-of-range values make Go report
`ErrRange`, which the handler treats as failure). -/
def parseInt64 (s : String) : Option Int :=
  match s.data with
  | [] => none
  | c :: rest =>
    let (neg, digits) :=
      if c = '+' then (false, rest)
      else if c = '-' then (true, rest)
      else (false, c :: rest)
    if digits = [] then none
    else if digits.all Char.isDigit then
      let n : Nat := digits.foldl (fun acc d => acc * 10 + (d.toNat - 48)) 0
      if neg then
        if n ≤ 9223372036854775808 then some (-(n : Int)) else none
      else
        if n ≤ 9223372036854775807 then some (n : Int) else none
    else none

/-- Nanoseconds per unit — Go's `time.unitMap`. -/
def unitMap (u : String) : Option Nat :=
  if u = "ns" then some 1
  else if u = "us" then some 1000
  else if u = "µs" then some 1000
  else if u = "μs" then some 1000
  else if u = "ms" then some 1000000
  else if u = "s" then some 1000000000
  else if u = "m" then some 60000000000
  else if u = "h" then some 3600000000000
  else none

/-- Go's `time.leadingInt`: consume leading decimal digits into a `uint64`,
erroring (`none`) past the `1<<63` overflow checks.  `922337203685477580`
is `(1<<63)/10` and `9223372036854775808` is `1<<63`, as in the source. -/
def leadingIntAux (x : Nat) : List Char → Option (Nat × List Char)
  | [] => some (x, [])
  | c :: rest =>
    if c.isDigit then
      if x > 922337203685477580 then none
      else
        let y := x * 10 + (c.toNat - 48)
        if y > 9223372036854775808 then none
        else leadingIntAux y rest
    else some (x, c :: rest)

/-- Go's `time.leadingFraction`: consume digits after the decimal point,
freezing the accumulators once an overflow would occur.  `scale` is the Go
`float64` power of ten, exact as a `Nat` in the reachable range. -/
def leadingFractionAux (x scale : Nat) (overflow : Bool) :
    List Char → Nat × Nat × List Char
  | [] => (x, scale, [])
  | c :: rest =>
    if c.isDigit then
      if overflow then leadingFractionAux x scale overflow rest
      else if x > 922337203685477580 then leadingFractionAux x scale true rest
      else
        let y := x * 10 + (c.toNat - 48)
        if y > 9223372036854775808 then leadingFractionAux x scale true rest
        else leadingFractionAux y (scale * 10) false rest
    else (x, scale, c :: rest)

/-- One iteration of `time.ParseDuration`'s main loop: parse
`[0-9]*(\.[0-9]*)?unit` and return its nanosecond value and the rest.
Go computes the fractional contribution as
`uint64(float64(f) * (float64(unit)/scale))`; it is modelled here as the
truncated rational `f * unit / scale` (the two agree on every duration
string short enough for `float64` to be exact, and no theorem below
depends on the fractional path). -/
def durTerm (s : List Char) : Option (Nat × List Char) :=
  match s with
  | [] => none
  | c :: _ =>
    if ¬(c = '.' ∨ c.isDigit) then none
    else
      match leadingIntAux 0 s with
      | none => none
      | some (v0, rem1) =>
        let pre : Bool := rem1.length ≠ s.length
        let (f, scale, rem2, post) :=
          match rem1 with
          | '.' :: rest =>
            let (f, sc, r) := leadingFractionAux 0 1 false rest
            (f, sc, r, (r.length ≠ rest.length : Bool))
          | _ => (0, 1, rem1, false)
        if pre = false ∧ post = false then none
        else
          let (unitChars, rem3) := rem2.span (fun c => !(c == '.' || c.isDigit))
          if unitChars.isEmpty then none
          else
            match unitMap (String.mk unitChars) with
            | none => none
            | some unit =>
              if v0 > 9223372036854775808 / unit then none
              else
                let v1 := v0 * unit
                let v2 := if f > 0 then v1 + f * unit / scale else v1
                if f > 0 ∧ v2 > 9223372036854775808 then none
                else some (v2, rem3)

/-- `time.ParseDuration`'s accumulation loop over terms.  `d` lives in a Go
`uint64`, hence the wrap modulo `2^64` on addition; the fuel is
`length + 1`, which never runs out because a successful `durTerm` always
consumes at least one character. -/
def parseDurationLoop : Nat → List Char → Nat → Option Nat
  | 0, _, _ => none
  | _ + 1, [], d => some d
  | fuel + 1, c :: cs, d =>
    match durTerm (c :: cs) with
    | none => none
    | some (v, rem) =>
      let d1 := (d + v) % 18446744073709551616
      if d1 > 9223372036854775808 then none
      else parseDurationLoop fuel rem d1

/-- Go's `time.ParseDuration`, `some` nanoseconds exactly when Go returns a
nil error: optional sign, the special case `"0"`, then one or more
number-unit terms with the source's overflow checks and final range check. -/
def parseDuration (s : String) : Option Int :=
  let cs := s.data
  let (neg, cs1) :=
    match cs with
    | '-' :: rest => (true, rest)
    | '+' :: rest => (false, rest)
    | _ => (false, cs)
  if cs1 = ['0'] then some 0
  else if cs1 = [] then none
  else
    match parseDurationLoop (cs1.length + 1) cs1 0 with
    | none => none
    | some d =>
      if neg then some (-(d : Int))
      else if d > 9223372036854775807 then none
      else some (d : Int)

/-- The fixed allow-list of result keys copied into labels
(`defaultLabels` in the handler). -/
def defaultLabels : List String :=
  ["_raw", "host", "index", "name", "source", "sourcetype"]

/-- One step of the default-label loop: copy `result[key]` into the label
map when it is present and string-valued. -/
def labelStep (result : List (String × GoValue)) (acc : List (String × String))
    (key : String) : List (String × String) :=
  match strLookup result key with
  | some s => smapSet acc key s
  | none => acc

/-- The handler's loop over `defaultLabels`. -/
def addLabelKeys (result : List (String × GoValue)) (keys : List String)
    (labels : List (String × String)) : List (String × String) :=
  keys.foldl (labelStep result) labels

/-- One step of the additional-label loop, which first skips empty strings
left over from `strings.Split`. -/
def addlStep (result : List (String × GoValue)) (acc : List (String × String))
    (key : String) : List (String × String) :=
  if key = "" then acc else labelStep result acc key

/-- The handler's loop over `cfg.AdditionalLabels`. -/
def addAdditionalLabelKeys (result : List (String × GoValue)) (keys : List String)
    (labels : List (String × String)) : List (String × String) :=
  keys.foldl (addlStep result) labels

/-- The handler's label construction: default allow-list first, then the
configured additional keys, starting from an empty map. -/
def buildLabels (cfg : Config) (result : List (String × GoValue)) :
    List (String × String) :=
  addAdditionalLabelKeys result cfg.additionalLabels
    (addLabelKeys result defaultLabels [])

/-- The `V2Alert` literal the handler constructs: constant status, computed
labels, the two fixed annotations derived from the search name and results
link, and the computed timestamps. -/
def buildAlert (cfg : Config) (p : SplunkPayload) (startsAt : Int)
    (endsAt : Option Int) : V2Alert :=
  { status := "firing"
    labels := buildLabels cfg p.result
    annotations :=
      [("summary", "Alert triggered in Splunk: " ++ p.searchName),
       ("link", p.resultsLink)]
    startsAt := startsAt
    endsAt := endsAt
    generatorURL := p.resultsLink }

/-- The status line and body written back to the original caller.
`http.Error` bodies and the success `fmt.Fprintln` carry a trailing
newline. -/
structure HTTPResponse where
  status : Nat
  body : String

/-- What one handled request produces: the response to the caller and, when
the handler reached the forwarding step, the POSTed alert payload. -/
structure HandleOutcome where
  response : HTTPResponse
  posted : Option (List V2Alert)

/-- The caller-facing response after the single `http.Post`, as a function
of the destination's answer (`none` = transport error). -/
def forwardResponse (postResp : Option (Nat × String)) : HTTPResponse :=
  match postResp with
  | none => ⟨500, "Failed to send payload to Alertmanager\n"⟩
  | some (st, b) =>
    if st ≠ 200 then ⟨500, "Error from Alertmanager: " ++ b ++ "\n"⟩
    else ⟨200, "Payload successfully forwarded to Alertmanager\n"⟩

/-- The forwarding step: the POST is attempted exactly once, with the
single-element alert array; the response relays the destination's answer.
(`json.Marshal` of this payload shape cannot fail, so that branch of the
source is unreachable and not modelled.) -/
def forward (payload : List V2Alert) (postResp : Option (Nat × String)) :
    HandleOutcome :=
  ⟨forwardResponse postResp, some payload⟩

/-- The tail of `HandleSplunkWebhook` once the trigger time has been
extracted (`t` is the parsed Unix-seconds value, so `timeUnix t` is the
`startsAt`): `EndsAt` computation, alert construction, and forwarding. -/
def withTime (cfg : Config) (p : SplunkPayload)
    (postResp : Option (Nat × String)) (t : Int) : HandleOutcome :=
  if cfg.endsAtDuration = "" then
    forward [buildAlert cfg p (timeUnix t) none] postResp
  else
    match parseDuration cfg.endsAtDuration with
    | none => ⟨⟨400, "Invalid ends-at duration\n"⟩, none⟩
    | some d => forward [buildAlert cfg p (timeUnix t) (some (timeUnix t + d))] postResp

/-- The body of `HandleSplunkWebhook` after the `json.Unmarshal` step:
trigger-time extraction from the result map, then `withTime`. -/
def handleParsed (cfg : Config) (p : SplunkPayload)
    (postResp : Option (Nat × String)) : HandleOutcome :=
  match strLookup p.result "_time" with
  | none => ⟨⟨400, "Invalid or missing trigger time\n"⟩, none⟩
  | some triggerTimeStr =>
    match parseInt64 triggerTimeStr with
    | none => ⟨⟨400, "Invalid trigger time format\n"⟩, none⟩
    | some triggerTimeUnix => withTime cfg p postResp triggerTimeUnix

/-- `HandleSplunkWebhook` (pkg/alertmanager, live file): the full
per-request pipeline.  `parsed` is the request body after `json.Unmarshal`
(`none` on read/parse failure); `_now` is the wall clock at receipt, which
this handler never consults — the start time comes from the result map's
`_time` entry via `strconv.ParseInt`. -/
def handleSplunkWebhook (cfg : Config) (_now : Int)
    (parsed : Option SplunkPayload) (postResp : Option (Nat × String)) :
    HandleOutcome :=
  match parsed with
  | none => ⟨⟨400, "Failed to parse JSON\n"⟩, none⟩
  | some p => handleParsed cfg p postResp

/-- The listener (`api.StartServer`): one fixed route whose handler is
invoked independently per request, with no state carried between requests.
Each request is a triple of receipt time, decoded body, and the
destination's answer to its POST. -/
def serve (cfg : Config)
    (reqs : List (Int × Option SplunkPayload × Option (Nat × String))) :
    List HandleOutcome :=
  reqs.map (fun r => handleSplunkWebhook cfg r.1 r.2.1 r.2.2)

/-- Remove every binding of a key from a decoded result map (used to state
that an entry contributes nothing to the produced alert). -/
def removeKey (result : List (String × GoValue)) (k : String) :
    List (String × GoValue) :=
  result.filter (fun kv => kv.1 != k)

/-! ### Helper lemmas about the label maps -/

theorem smapGet_smapSet (m : List (String × String)) (k v k' : String) :
    smapGet (smapSet m k v) k' = if k = k' then some v else smapGet m k' := by
  induction m with
  | nil => simp [smapSet, smapGet]
  | cons kv rest ih =>
    obtain ⟨k0, v0⟩ := kv
    by_cases h0 : k0 = k
    · subst h0
      by_cases h1 : k0 = k'
      · subst h1; simp [smapSet, smapGet]
      · simp [smapSet, smapGet, h1]
    · by_cases h1 : k0 = k'
      · subst h1
        have hne : k ≠ k0 := fun hh => h0 hh.symm
        simp [smapSet, smapGet, h0, hne]
      · simp [smapSet, smapGet, h0, h1, ih]

theorem smapGet_labelStep (result : List (String × GoValue))
    (acc : List (String × String)) (key k : String) :
    smapGet (labelStep result acc key) k =
      if key = k ∧ (strLookup result k).isSome then strLookup result k
      else smapGet acc k := by
  unfold labelStep
  by_cases hk : key = k
  · subst hk
    cases hs : strLookup result key with
    | none => simp [hs]
    | some s => simp [hs, smapGet_smapSet]
  · cases hs : strLookup result key with
    | none => simp [hk]
    | some s => simp [smapGet_smapSet, hk]

theorem smapGet_addLabelKeys (result : List (String × GoValue)) (keys : List String)
    (L : List (String × String)) (k : String) :
    smapGet (addLabelKeys result keys L) k =
      if k ∈ keys ∧ (strLookup result k).isSome then strLookup result k
      else smapGet L k := by
  induction keys generalizing L with
  | nil => simp [addLabelKeys]
  | cons key keys ih =>
    have hstep : addLabelKeys result (key :: keys) L
        = addLabelKeys result keys (labelStep result L key) := rfl
    rw [hstep, ih, smapGet_labelStep]
    by_cases he : key = k
    · subst he
      by_cases hm : key ∈ keys <;> by_cases hs : (strLookup result key).isSome <;>
        simp [hm, hs, List.mem_cons]
    · have he' : ¬(k = key) := fun hh => he hh.symm
      by_cases hm : k ∈ keys <;> by_cases hs : (strLookup result k).isSome <;>
        simp [hm, hs, he, he', List.mem_cons]

theorem smapGet_addAdditional (result : List (String × GoValue)) (keys : List String)
    (L : List (String × String)) (k : String) :
    smapGet (addAdditionalLabelKeys result keys L) k =
      if k ∈ keys ∧ k ≠ "" ∧ (strLookup result k).isSome then strLookup result k
      else smapGet L k := by
  induction keys generalizing L with
  | nil => simp [addAdditionalLabelKeys]
  | cons key keys ih =>
    have hstep : addAdditionalLabelKeys result (key :: keys) L
        = addAdditionalLabelKeys result keys (addlStep result L key) := rfl
    rw [hstep, ih]
    unfold addlStep
    by_cases hke : key = ""
    · subst hke
      by_cases hm : k ∈ keys <;> by_cases hne : k = "" <;>
        by_cases hs : (strLookup result k).isSome <;>
        simp [hm, hne, hs, List.mem_cons]
    · rw [if_neg hke, smapGet_labelStep]
      by_cases he : key = k
      · subst he
        by_cases hm : key ∈ keys <;> by_cases hs : (strLookup result key).isSome <;>
          simp [hm, hs, hke, List.mem_cons]
      · have he' : ¬(k = key) := fun hh => he hh.symm
        by_cases hm : k ∈ keys <;> by_cases hne : k = "" <;>
          by_cases hs : (strLookup result k).isSome <;>
          simp [hm, hne, hs, he, he', hke, List.mem_cons]

theorem smapGet_buildLabels (cfg : Config) (result : List (String × GoValue))
    (k : String) :
    smapGet (buildLabels cfg result) k =
      if k ∈ defaultLabels ∨ (k ∈ cfg.additionalLabels ∧ k ≠ "") then
        strLookup result k
      else none := by
  unfold buildLabels
  rw [smapGet_addAdditional, smapGet_addLabelKeys]
  cases hs : strLookup result k with
  | none => simp [hs, smapGet]
  | some s =>
    by_cases h1 : k ∈ cfg.additionalLabels <;> by_cases h2 : k = "" <;>
      by_cases h3 : k ∈ defaultLabels <;>
      simp [hs, h1, h2, h3, smapGet]

/-! ### Inversion lemmas for the handler -/

theorem handle_some (cfg : Config) (now : Int) (p : SplunkPayload)
    (postResp : Option (Nat × String)) :
    handleSplunkWebhook cfg now (some p) postResp = handleParsed cfg p postResp :=
  rfl

theorem handleParsed_time_none (cfg : Config) (p : SplunkPayload)
    (postResp : Option (Nat × String))
    (hts : strLookup p.result "_time" = none) :
    handleParsed cfg p postResp =
      ⟨⟨400, "Invalid or missing trigger time\n"⟩, none⟩ := by
  unfold handleParsed; rw [hts]

theorem handleParsed_bad_int (cfg : Config) (p : SplunkPayload)
    (postResp : Option (Nat × String)) (s : String)
    (hts : strLookup p.result "_time" = some s) (hpi : parseInt64 s = none) :
    handleParsed cfg p postResp =
      ⟨⟨400, "Invalid trigger time format\n"⟩, none⟩ := by
  unfold handleParsed
  rw [hts]
  show (match parseInt64 s with
        | none => (⟨⟨400, "Invalid trigger time format\n"⟩, none⟩ : HandleOutcome)
        | some triggerTimeUnix => withTime cfg p postResp triggerTimeUnix) =
      ⟨⟨400, "Invalid trigger time format\n"⟩, none⟩
  rw [hpi]

theorem handleParsed_good_int (cfg : Config) (p : SplunkPayload)
    (postResp : Option (Nat × String)) (s : String) (t : Int)
    (hts : strLookup p.result "_time" = some s) (hpi : parseInt64 s = some t) :
    handleParsed cfg p postResp = withTime cfg p postResp t := by
  unfold handleParsed
  rw [hts]
  show (match parseInt64 s with
        | none => (⟨⟨400, "Invalid trigger time format\n"⟩, none⟩ : HandleOutcome)
        | some triggerTimeUnix => withTime cfg p postResp triggerTimeUnix) =
      withTime cfg p postResp t
  rw [hpi]

theorem withTime_empty (cfg : Config) (p : SplunkPayload)
    (postResp : Option (Nat × String)) (t : Int)
    (he : cfg.endsAtDuration = "") :
    withTime cfg p postResp t =
      forward [buildAlert cfg p (timeUnix t) none] postResp := by
  unfold withTime; rw [if_pos he]

theorem withTime_bad_dur (cfg : Config) (p : SplunkPayload)
    (postResp : Option (Nat × String)) (t : Int)
    (he : ¬cfg.endsAtDuration = "")
    (hd : parseDuration cfg.endsAtDuration = none) :
    withTime cfg p postResp t = ⟨⟨400, "Invalid ends-at duration\n"⟩, none⟩ := by
  unfold withTime; rw [if_neg he, hd]

theorem withTime_good_dur (cfg : Config) (p : SplunkPayload)
    (postResp : Option (Nat × String)) (t d : Int)
    (he : ¬cfg.endsAtDuration = "")
    (hd : parseDuration cfg.endsAtDuration = some d) :
    withTime cfg p postResp t =
      forward [buildAlert cfg p (timeUnix t) (some (timeUnix t + d))] postResp := by
  unfold withTime; rw [if_neg he, hd]

/-- If a handled request reached the POST, the pipeline must have gone
through the success path: the `_time` entry was a string parsing as an
`int64`, and the forwarded alert is the constructed one, with `EndsAt`
as dictated by the configured duration. -/
theorem posted_shape (cfg : Config) (now : Int) (p : SplunkPayload)
    (postResp : Option (Nat × String)) (a : V2Alert)
    (h : (handleSplunkWebhook cfg now (some p) postResp).posted = some [a]) :
    ∃ s t, strLookup p.result "_time" = some s ∧ parseInt64 s = some t ∧
      ((cfg.endsAtDuration = "" ∧ a = buildAlert cfg p (timeUnix t) none) ∨
       (∃ d, parseDuration cfg.endsAtDuration = some d ∧
         a = buildAlert cfg p (timeUnix t) (some (timeUnix t + d)))) := by
  rw [handle_some] at h
  cases hts : strLookup p.result "_time" with
  | none => rw [handleParsed_time_none cfg p postResp hts] at h; simp at h
  | some s =>
    cases hpi : parseInt64 s with
    | none => rw [handleParsed_bad_int cfg p postResp s hts hpi] at h; simp at h
    | some t =>
      rw [handleParsed_good_int cfg p postResp s t hts hpi] at h
      by_cases he : cfg.endsAtDuration = ""
      · rw [withTime_empty cfg p postResp t he] at h
        simp only [forward] at h
        refine ⟨s, t, rfl, hpi, Or.inl ⟨he, ?_⟩⟩
        have h2 := Option.some.inj h
        exact (List.cons.inj h2).1.symm
      · cases hd : parseDuration cfg.endsAtDuration with
        | none => rw [withTime_bad_dur cfg p postResp t he hd] at h; simp at h
        | some d =>
          rw [withTime_good_dur cfg p postResp t d he hd] at h
          simp only [forward] at h
          refine ⟨s, t, rfl, hpi, Or.inr ⟨d, rfl, ?_⟩⟩
          have h2 := Option.some.inj h
          exact (List.cons.inj h2).1.symm

/-- If a handled request reached the POST, the response written back to the
caller is determined by the destination's answer alone. -/
theorem response_of_posted (cfg : Config) (now : Int)
    (parsed : Option SplunkPayload) (postResp : Option (Nat × String))
    (h : (handleSplunkWebhook cfg now parsed postResp).posted.isSome = true) :
    (handleSplunkWebhook cfg now parsed postResp).response =
      forwardResponse postResp := by
  cases parsed with
  | none => simp [handleSplunkWebhook] at h
  | some p =>
    rw [handle_some] at h ⊢
    cases hts : strLookup p.result "_time" with
    | none => rw [handleParsed_time_none cfg p postResp hts] at h; simp at h
    | some s =>
      cases hpi : parseInt64 s with
      | none => rw [handleParsed_bad_int cfg p postResp s hts hpi] at h; simp at h
      | some t =>
        rw [handleParsed_good_int cfg p postResp s t hts hpi] at h ⊢
        by_cases he : cfg.endsAtDuration = ""
        · rw [withTime_empty cfg p postResp t he]; rfl
        · cases hd : parseDuration cfg.endsAtDuration with
          | none => rw [withTime_bad_dur cfg p postResp t he hd] at h; simp at h
          | some d => rw [withTime_good_dur cfg p postResp t d he hd]; rfl

/-! ### Extensionality in the result map -/

theorem labelStep_ext {r r' : List (String × GoValue)}
    (h : ∀ k, strLookup r' k = strLookup r k)
    (acc : List (String × String)) (key : String) :
    labelStep r' acc key = labelStep r acc key := by
  unfold labelStep; rw [h]

theorem addLabelKeys_ext {r r' : List (String × GoValue)}
    (h : ∀ k, strLookup r' k = strLookup r k) (keys : List String)
    (L : List (String × String)) :
    addLabelKeys r' keys L = addLabelKeys r keys L := by
  induction keys generalizing L with
  | nil => rfl
  | cons key keys ih =>
    show addLabelKeys r' keys (labelStep r' L key)
        = addLabelKeys r keys (labelStep r L key)
    rw [labelStep_ext h, ih]

theorem addAdditional_ext {r r' : List (String × GoValue)}
    (h : ∀ k, strLookup r' k = strLookup r k) (keys : List String)
    (L : List (String × String)) :
    addAdditionalLabelKeys r' keys L = addAdditionalLabelKeys r keys L := by
  induction keys generalizing L with
  | nil => rfl
  | cons key keys ih =>
    show addAdditionalLabelKeys r' keys (addlStep r' L key)
        = addAdditionalLabelKeys r keys (addlStep r L key)
    unfold addlStep
    by_cases hke : key = ""
    · rw [if_pos hke, if_pos hke, ih]
    · rw [if_neg hke, if_neg hke, labelStep_ext h, ih]

theorem buildLabels_ext (cfg : Config) {r r' : List (String × GoValue)}
    (h : ∀ k, strLookup r' k = strLookup r k) :
    buildLabels cfg r' = buildLabels cfg r := by
  unfold buildLabels
  rw [addLabelKeys_ext h, addAdditional_ext h]

theorem buildAlert_result_ext (cfg : Config) (p : SplunkPayload)
    {r' : List (String × GoValue)} (startsAt : Int) (endsAt : Option Int)
    (h : ∀ k, strLookup r' k = strLookup p.result k) :
    buildAlert cfg { p with result := r' } startsAt endsAt
      = buildAlert cfg p startsAt endsAt := by
  have hl : buildLabels cfg r' = buildLabels cfg p.result := buildLabels_ext cfg h
  unfold buildAlert
  rw [show ({ p with result := r' } : SplunkPayload).result = r' from rfl, hl]

/-- The handler consults the inbound result map only through
string-asserted lookups, so two payloads whose result maps agree on every
such lookup are handled identically. -/
theorem handle_result_ext (cfg : Config) (now : Int) (p : SplunkPayload)
    (r' : List (String × GoValue)) (postResp : Option (Nat × String))
    (h : ∀ k, strLookup r' k = strLookup p.result k) :
    handleSplunkWebhook cfg now (some { p with result := r' }) postResp =
      handleSplunkWebhook cfg now (some p) postResp := by
  rw [handle_some, handle_some]
  have hr : strLookup ({ p with result := r' } : SplunkPayload).result "_time"
      = strLookup p.result "_time" := h "_time"
  cases hts : strLookup p.result "_time" with
  | none =>
    rw [handleParsed_time_none cfg p postResp hts,
        handleParsed_time_none cfg { p with result := r' } postResp (hr.trans hts)]
  | some s =>
    cases hpi : parseInt64 s with
    | none =>
      rw [handleParsed_bad_int cfg p postResp s hts hpi,
          handleParsed_bad_int cfg { p with result := r' } postResp s (hr.trans hts) hpi]
    | some t =>
      rw [handleParsed_good_int cfg p postResp s t hts hpi,
          handleParsed_good_int cfg { p with result := r' } postResp s t (hr.trans hts) hpi]
      by_cases he : cfg.endsAtDuration = ""
      · rw [withTime_empty cfg { p with result := r' } postResp t he,
            withTime_empty cfg p postResp t he,
            buildAlert_result_ext cfg p _ _ h]
      · cases hd : parseDuration cfg.endsAtDuration with
        | none =>
          rw [withTime_bad_dur cfg { p with result := r' } postResp t he hd,
              withTime_bad_dur cfg p postResp t he hd]
        | some d =>
          rw [withTime_good_dur cfg { p with result := r' } postResp t d he hd,
              withTime_good_dur cfg p postResp t d he hd,
              buildAlert_result_ext cfg p _ _ h]

theorem mapGet_removeKey (result : List (String × GoValue)) (k k' : String) :
    mapGet (removeKey result k) k' = if k' = k then none else mapGet result k' := by
  induction result with
  | nil => simp [removeKey, mapGet]
  | cons kv rest ih =>
    obtain ⟨k0, v0⟩ := kv
    by_cases h0 : k0 = k
    · have hcons : removeKey ((k0, v0) :: rest) k = removeKey rest k := by
        simp [removeKey, h0]
      rw [hcons, ih]
      by_cases h1 : k' = k
      · simp [h1]
      · have h2 : ¬(k0 = k') := by
          rw [h0]; exact fun hh => h1 hh.symm
        simp [h1, mapGet, h2]
    · have hcons : removeKey ((k0, v0) :: rest) k = (k0, v0) :: removeKey rest k := by
        simp [removeKey, h0]
      rw [hcons]
      simp only [mapGet]
      rw [ih]
      by_cases h1 : k0 = k'
      · subst h1
        simp [h0]
      · by_cases h2 : k' = k <;> simp [h0, h1, h2]

theorem strLookup_removeKey (result : List (String × GoValue)) (k k' : String) :
    strLookup (removeKey result k) k' =
      if k' = k then none else strLookup result k' := by
  unfold strLookup
  rw [mapGet_removeKey]
  by_cases h : k' = k
  · simp [h]
  · simp [h]

theorem strLookup_none_of_nonstr {result : List (String × GoValue)} {k : String}
    {v : GoValue} (hv : mapGet result k = some v) (hns : v.isStr = false) :
    strLookup result k = none := by
  unfold strLookup
  rw [hv]
  cases v <;> simp_all [GoValue.isStr]

/-! ### Concrete fixtures used by witnesses and counterexamples -/

/-- The default configuration: all flag defaults, in particular an empty
`EndsAtDuration`, `AdditionalLabels = [""]`, and the never-read
annotation-prefix field `"ann."`. -/
def cfg0 : Config := {}

/-- Default configuration with the end-time offset `"1h"`. -/
def cfg1h : Config := { endsAtDuration := "1h" }

/-- Default configuration with the unparseable end-time offset `"junk"`. -/
def cfgBad : Config := { endsAtDuration := "junk" }

/-- A minimal well-formed inbound event: the result set names only the
trigger time (Unix second 100). -/
def p0 : SplunkPayload :=
  { sid := "sid1", searchName := "mysearch", app := "myapp", owner := "admin",
    resultsLink := "http://splunk.example/r",
    result := [("_time", GoValue.vstr "100")] }

/-- `p0` with an additional `ann.foo = "bar"` result entry. -/
def p2 : SplunkPayload :=
  { p0 with result := [("_time", GoValue.vstr "100"), ("ann.foo", GoValue.vstr "bar")] }

/-- `p0` with a numeric `count = 42` entry next to a string `host` entry. -/
def p3 : SplunkPayload :=
  { p0 with result :=
      [("_time", GoValue.vstr "100"), ("count", GoValue.vnum 42),
       ("host", GoValue.vstr "web1")] }

/-- `p0` with a `_time` string naming `2^63`, one past the `int64` range. -/
def pBig : SplunkPayload :=
  { p0 with result := [("_time", GoValue.vstr "9223372036854775808")] }

/-- `p0` with no `_time` entry at all. -/
def pNoTime : SplunkPayload :=
  { p0 with result := [("host", GoValue.vstr "web1")] }

/-- The alert the handler forwards for `p0` under `cfg0`: empty label set,
the two fixed annotations, start time 100 s, no end time. -/
def alert0 : V2Alert :=
  { status := "firing", labels := [],
    annotations :=
      [("summary", "Alert triggered in Splunk: mysearch"),
       ("link", "http://splunk.example/r")],
    startsAt := 100000000000, endsAt := none,
    generatorURL := "http://splunk.example/r" }

/-- The alert forwarded for `p0` under `cfg1h`: as `alert0` but with an end
time one hour after the start time. -/
def alert1h : V2Alert := { alert0 with endsAt := some 3700000000000 }

/-! ### The claims -/

/-- C1: for every forwarded alert, each key of the inbound result set is
routed deterministically — it lands in the label map exactly when it is
allow-listed (fixed default list, or configured additional list and
non-empty) and string-valued, with exactly the looked-up value, and is
dropped otherwise — while the annotation set is the fixed two-element list
derived only from the search name and results link, so no result-set entry
contributes a pair to both the label set and the annotation set. -/
theorem c1_partition (cfg : Config) (now : Int) (p : SplunkPayload)
    (postResp : Option (Nat × String)) (a : V2Alert)
    (h : (handleSplunkWebhook cfg now (some p) postResp).posted = some [a]) :
    (∀ k, smapGet a.labels k =
        if k ∈ defaultLabels ∨ (k ∈ cfg.additionalLabels ∧ k ≠ "") then
          strLookup p.result k
        else none)
    ∧ a.annotations =
        [("summary", "Alert triggered in Splunk: " ++ p.searchName),
         ("link", p.resultsLink)] := by
  obtain ⟨s, t, hts, hpi, hcase⟩ := posted_shape cfg now p postResp a h
  have hl : a.labels = buildLabels cfg p.result := by
    rcases hcase with ⟨he, ha⟩ | ⟨d, hd, ha⟩ <;> (rw [ha]; rfl)
  have han : a.annotations =
      [("summary", "Alert triggered in Splunk: " ++ p.searchName),
       ("link", p.resultsLink)] := by
    rcases hcase with ⟨he, ha⟩ | ⟨d, hd, ha⟩ <;> (rw [ha]; rfl)
  exact ⟨fun k => by rw [hl, smapGet_buildLabels], han⟩

/-- Witness for C1 at a concrete request (`p0` under `cfg0`, destination
answering 200). -/
theorem c1_partition_witness :
    smapGet alert0.labels "host" =
      (if "host" ∈ defaultLabels ∨ ("host" ∈ cfg0.additionalLabels ∧ "host" ≠ "")
       then strLookup p0.result "host" else none)
    ∧ alert0.annotations =
        [("summary", "Alert triggered in Splunk: " ++ p0.searchName),
         ("link", p0.resultsLink)] :=
  ⟨(c1_partition cfg0 0 p0 (some (200, "ok")) alert0 rfl).1 "host",
   (c1_partition cfg0 0 p0 (some (200, "ok")) alert0 rfl).2⟩

/-- C2: the live handler never reads the configured annotation prefix
(`cfg0`'s field is `"ann."`), so the entry `ann.foo = "bar"` of `p2` yields
neither the annotation `foo = bar` — the forwarded alert's annotation set is
the fixed summary/link pair, with no `"foo"` key — nor any label.  This
contradicts the flag's own documentation ("Prefix for detecting
annotations") and the archived handler variant, which does route
`ann.`-prefixed entries to annotations. -/
theorem c2_ann_entry_dropped :
    (handleSplunkWebhook cfg0 0 (some p2) (some (200, "ok"))).posted = some [alert0]
    ∧ smapGet alert0.annotations "foo" = none
    ∧ smapGet alert0.labels "ann.foo" = none :=
  ⟨rfl, rfl, rfl⟩

/-- C3: a result-set entry whose value is not a JSON string contributes
neither a label nor an annotation: removing every binding of its key leaves
the handled outcome — response and forwarded payload — unchanged. -/
theorem c3_nonstring_no_contribution (cfg : Config) (now : Int)
    (p : SplunkPayload) (postResp : Option (Nat × String)) (k : String)
    (v : GoValue) (hv : mapGet p.result k = some v) (hns : v.isStr = false) :
    handleSplunkWebhook cfg now (some { p with result := removeKey p.result k })
        postResp
      = handleSplunkWebhook cfg now (some p) postResp := by
  apply handle_result_ext
  intro k'
  rw [strLookup_removeKey]
  by_cases hk : k' = k
  · rw [if_pos hk, hk, strLookup_none_of_nonstr hv hns]
  · rw [if_neg hk]

/-- Witness for C3: dropping the numeric `count = 42` entry of `p3` leaves
the outcome unchanged. -/
theorem c3_nonstring_no_contribution_witness :
    handleSplunkWebhook cfg0 0
        (some { p3 with result := removeKey p3.result "count" }) (some (200, "ok"))
      = handleSplunkWebhook cfg0 0 (some p3) (some (200, "ok")) :=
  c3_nonstring_no_contribution cfg0 0 p3 (some (200, "ok")) "count"
    (GoValue.vnum 42) rfl rfl

/-- C4: a request whose body could not be read or did not unmarshal as the
inbound event shape (in Go, both the empty body and malformed JSON) is
answered with client error 400 and no outbound POST is attempted. -/
theorem c4_malformed_rejected (cfg : Config) (now : Int)
    (postResp : Option (Nat × String)) :
    handleSplunkWebhook cfg now none postResp
      = ⟨⟨400, "Failed to parse JSON\n"⟩, none⟩ :=
  rfl

/-- C5: whenever the configured end-time offset parses as a duration `d`,
every forwarded alert's end time is exactly its start time plus `d`; the
offset `"1h"` parses to exactly one hour (3.6e12 ns); and an empty offset
yields an alert with no end time. -/
theorem c5_endsAt :
    (∀ (cfg : Config) (now : Int) (p : SplunkPayload)
        (postResp : Option (Nat × String)) (a : V2Alert) (d : Int),
      parseDuration cfg.endsAtDuration = some d →
      (handleSplunkWebhook cfg now (some p) postResp).posted = some [a] →
      a.endsAt = some (a.startsAt + d))
    ∧ parseDuration "1h" = some 3600000000000
    ∧ (∀ (cfg : Config) (now : Int) (p : SplunkPayload)
        (postResp : Option (Nat × String)) (a : V2Alert),
      cfg.endsAtDuration = "" →
      (handleSplunkWebhook cfg now (some p) postResp).posted = some [a] →
      a.endsAt = none) := by
  refine ⟨?_, rfl, ?_⟩
  · intro cfg now p postResp a d hd h
    obtain ⟨s, t, hts, hpi, hcase⟩ := posted_shape cfg now p postResp a h
    rcases hcase with ⟨he, ha⟩ | ⟨d', hd', ha⟩
    · rw [he, show parseDuration "" = none from rfl] at hd
      exact Option.noConfusion hd
    · have hdd : d' = d := Option.some.inj (hd'.symm.trans hd)
      subst hdd
      rw [ha]
      rfl
  · intro cfg now p postResp a he h
    obtain ⟨s, t, hts, hpi, hcase⟩ := posted_shape cfg now p postResp a h
    rcases hcase with ⟨he', ha⟩ | ⟨d', hd', ha⟩
    · rw [ha]
      rfl
    · rw [he, show parseDuration "" = none from rfl] at hd'
      exact Option.noConfusion hd'

/-- Witness for C5: under `cfg1h` (offset "1h") the forwarded alert for
`p0` ends exactly one hour after it starts; under `cfg0` (empty offset) it
has no end time. -/
theorem c5_endsAt_witness :
    alert1h.endsAt = some (alert1h.startsAt + 3600000000000)
    ∧ alert0.endsAt = none :=
  ⟨c5_endsAt.1 cfg1h 0 p0 (some (200, "ok")) alert1h 3600000000000 rfl rfl,
   c5_endsAt.2.2 cfg0 0 p0 (some (200, "ok")) alert0 rfl rfl⟩

/-- C6: under a configuration whose end-time offset is non-empty and not a
parseable duration, every request — whatever its body — is answered with
client error 400 and no outbound POST; the failure is per-request: the
listener maps over requests independently, so the next request is handled
exactly as it would be on its own. -/
theorem c6_bad_duration :
    (∀ (cfg : Config) (now : Int) (parsed : Option SplunkPayload)
        (postResp : Option (Nat × String)),
      cfg.endsAtDuration ≠ "" →
      parseDuration cfg.endsAtDuration = none →
      (handleSplunkWebhook cfg now parsed postResp).response.status = 400 ∧
        (handleSplunkWebhook cfg now parsed postResp).posted = none)
    ∧ (∀ (cfg : Config)
        (req : Int × Option SplunkPayload × Option (Nat × String))
        (reqs : List (Int × Option SplunkPayload × Option (Nat × String))),
      serve cfg (req :: reqs)
        = handleSplunkWebhook cfg req.1 req.2.1 req.2.2 :: serve cfg reqs) := by
  constructor
  · intro cfg now parsed postResp hne hd
    cases parsed with
    | none => exact ⟨rfl, rfl⟩
    | some p =>
      rw [handle_some]
      cases hts : strLookup p.result "_time" with
      | none =>
        rw [handleParsed_time_none cfg p postResp hts]
        exact ⟨rfl, rfl⟩
      | some s =>
        cases hpi : parseInt64 s with
        | none =>
          rw [handleParsed_bad_int cfg p postResp s hts hpi]
          exact ⟨rfl, rfl⟩
        | some t =>
          rw [handleParsed_good_int cfg p postResp s t hts hpi,
              withTime_bad_dur cfg p postResp t hne hd]
          exact ⟨rfl, rfl⟩
  · intro cfg req reqs
    rfl

/-- Witness for C6 under `cfgBad` (offset "junk"). -/
theorem c6_bad_duration_witness :
    (handleSplunkWebhook cfgBad 0 (some p0) (some (200, "ok"))).response.status = 400
    ∧ (handleSplunkWebhook cfgBad 0 (some p0) (some (200, "ok"))).posted = none :=
  c6_bad_duration.1 cfgBad 0 (some p0) (some (200, "ok")) (by decide) rfl

/-- C7 counterexample: handled at receipt time 0 (nanoseconds since epoch),
the forwarded alert's start time is 100 s — the Unix time named by the
result's `_time` field — not the wall clock 0; and the whole outcome is
bit-for-bit unchanged when the receipt time is 999 instead, so the start
time cannot be the moment of receipt. -/
theorem c7_counterexample :
    (handleSplunkWebhook cfg0 0 (some p0) (some (200, "ok"))).posted = some [alert0]
    ∧ alert0.startsAt = 100000000000
    ∧ (100000000000 : Int) ≠ 0
    ∧ handleSplunkWebhook cfg0 0 (some p0) (some (200, "ok"))
        = handleSplunkWebhook cfg0 999 (some p0) (some (200, "ok")) :=
  ⟨rfl, rfl, by decide, rfl⟩

/-- C7 amended: the live handler's outcome does not depend on the wall
clock at receipt at all, and on success the alert's start time is the Unix
time named by the result set's `_time` entry — an inbound field.  (The
receipt-time behavior the claim describes belongs to the archived handler
variant.) -/
theorem c7_amended (cfg : Config) (now now' : Int)
    (parsed : Option SplunkPayload) (postResp : Option (Nat × String)) :
    handleSplunkWebhook cfg now parsed postResp
      = handleSplunkWebhook cfg now' parsed postResp
    ∧ (∀ (p : SplunkPayload) (s : String) (t : Int) (a : V2Alert),
        parsed = some p → strLookup p.result "_time" = some s →
        parseInt64 s = some t →
        (handleSplunkWebhook cfg now parsed postResp).posted = some [a] →
        a.startsAt = timeUnix t) := by
  constructor
  · cases parsed <;> rfl
  · intro p s t a hp hts hpi h
    subst hp
    obtain ⟨s', t', hts', hpi', hcase⟩ := posted_shape cfg now p postResp a h
    have hss : s' = s := Option.some.inj (hts'.symm.trans hts)
    subst hss
    have htt : t' = t := Option.some.inj (hpi'.symm.trans hpi)
    subst htt
    rcases hcase with ⟨he, ha⟩ | ⟨d, hd, ha⟩ <;> (rw [ha]; rfl)

/-- Witness for C7's amended statement at the concrete request `p0`. -/
theorem c7_amended_witness : alert0.startsAt = timeUnix 100 :=
  (c7_amended cfg0 0 999 (some p0) (some (200, "ok"))).2 p0 "100" 100 alert0
    rfl rfl rfl rfl

/-- C8: for every request that reached the forwarding POST, the caller is
answered 200 iff the destination answered 200; a non-200 destination status
yields server error 500 whose body is exactly
`"Error from Alertmanager: " ++ b ++ "\n"` — in particular it contains the
destination's response body `b`. -/
theorem c8_forward_status (cfg : Config) (now : Int)
    (parsed : Option SplunkPayload) (postResp : Option (Nat × String))
    (h : (handleSplunkWebhook cfg now parsed postResp).posted.isSome = true) :
    ((handleSplunkWebhook cfg now parsed postResp).response.status = 200 ↔
      (∃ b, postResp = some (200, b)))
    ∧ (∀ st b, postResp = some (st, b) → st ≠ 200 →
        (handleSplunkWebhook cfg now parsed postResp).response
          = ⟨500, "Error from Alertmanager: " ++ b ++ "\n"⟩
        ∧ ∃ pre suf,
            (handleSplunkWebhook cfg now parsed postResp).response.body
              = pre ++ b ++ suf) := by
  have hr := response_of_posted cfg now parsed postResp h
  rw [hr]
  constructor
  · cases postResp with
    | none => simp [forwardResponse]
    | some sb =>
      obtain ⟨st, b⟩ := sb
      by_cases hst : st = 200
      · subst hst
        simp [forwardResponse]
      · simp [forwardResponse, hst]
  · intro st b hpr hst
    subst hpr
    refine ⟨by simp [forwardResponse, hst], "Error from Alertmanager: ", "\n", ?_⟩
    simp [forwardResponse, hst]

/-- Witness for C8: destination answering 503 "boom" yields the 500
response carrying "boom". -/
theorem c8_forward_status_witness :
    (handleSplunkWebhook cfg0 0 (some p0) (some (503, "boom"))).response
      = ⟨500, "Error from Alertmanager: boom\n"⟩ :=
  ((c8_forward_status cfg0 0 (some p0) (some (503, "boom")) rfl).2 503 "boom"
    rfl (by decide)).1

/-- C9 counterexample: with the default configuration and a result set
containing only `_time`, the forwarded alert for `p0` has an empty label
set — no label identifies the search name "mysearch" or the application
"myapp" (those labels exist only in the archived handler variant). -/
theorem c9_counterexample :
    (handleSplunkWebhook cfg0 0 (some p0) (some (200, "ok"))).posted = some [alert0]
    ∧ alert0.labels = []
    ∧ p0.searchName = "mysearch" ∧ p0.app = "myapp" :=
  ⟨rfl, rfl, rfl, rfl⟩

/-- C9 amended: the live handler injects no search-name or application
labels — every label present comes from an allow-listed result-set key with
its looked-up value — and the source search name is identified in the fixed
`summary` annotation instead; the application tag does not appear in the
alert at all. -/
theorem c9_amended (cfg : Config) (now : Int) (p : SplunkPayload)
    (postResp : Option (Nat × String)) (a : V2Alert)
    (h : (handleSplunkWebhook cfg now (some p) postResp).posted = some [a]) :
    smapGet a.annotations "summary"
      = some ("Alert triggered in Splunk: " ++ p.searchName)
    ∧ (∀ k, (smapGet a.labels k).isSome = true →
        (k ∈ defaultLabels ∨ k ∈ cfg.additionalLabels)
        ∧ smapGet a.labels k = strLookup p.result k) := by
  obtain ⟨s, t, hts, hpi, hcase⟩ := posted_shape cfg now p postResp a h
  have hl : a.labels = buildLabels cfg p.result := by
    rcases hcase with ⟨he, ha⟩ | ⟨d, hd, ha⟩ <;> (rw [ha]; rfl)
  have han : smapGet a.annotations "summary"
      = some ("Alert triggered in Splunk: " ++ p.searchName) := by
    rcases hcase with ⟨he, ha⟩ | ⟨d, hd, ha⟩ <;> rw [ha] <;> rfl
  refine ⟨han, fun k hk => ?_⟩
  rw [hl, smapGet_buildLabels] at hk ⊢
  by_cases hin : k ∈ defaultLabels ∨ (k ∈ cfg.additionalLabels ∧ k ≠ "")
  · rw [if_pos hin]
    exact ⟨hin.elim Or.inl (fun hx => Or.inr hx.1), rfl⟩
  · rw [if_neg hin] at hk
    simp at hk

/-- Witness for C9's amended statement at the concrete request `p0`. -/
theorem c9_amended_witness :
    smapGet alert0.annotations "summary"
      = some ("Alert triggered in Splunk: " ++ p0.searchName) :=
  (c9_amended cfg0 0 p0 (some (200, "ok")) alert0 rfl).1

/-- The trigger-time extraction as a whole: the `_time` entry must be a
string and parse as an `int64` base-10 integer. -/
def timeOf (result : List (String × GoValue)) : Option Int :=
  (strLookup result "_time").bind parseInt64

/-- C10 counterexample: `"9223372036854775808"` (that is, `2^63`) is a
base-10 integer string — every character a digit — yet the handler rejects
the request with 400 and no POST instead of producing an alert starting at
that Unix time, because `strconv.ParseInt` is bounded to `int64`. -/
theorem c10_counterexample :
    handleSplunkWebhook cfg0 0 (some pBig) (some (200, "ok"))
      = ⟨⟨400, "Invalid trigger time format\n"⟩, none⟩
    ∧ "9223372036854775808".data.all Char.isDigit = true :=
  ⟨rfl, rfl⟩

/-- C10 amended: if the result set lacks `_time`, or its value is not a
JSON string, or that string is not a base-10 integer within the signed
64-bit range (all three folded into `timeOf`), the handler answers 400 with
no outbound POST; and every forwarded alert's start time is the Unix time
named by that integer. -/
theorem c10_amended :
    (∀ (cfg : Config) (now : Int) (p : SplunkPayload)
        (postResp : Option (Nat × String)),
      timeOf p.result = none →
      (handleSplunkWebhook cfg now (some p) postResp).response.status = 400 ∧
        (handleSplunkWebhook cfg now (some p) postResp).posted = none)
    ∧ (∀ (cfg : Config) (now : Int) (p : SplunkPayload)
        (postResp : Option (Nat × String)) (t : Int) (a : V2Alert),
      timeOf p.result = some t →
      (handleSplunkWebhook cfg now (some p) postResp).posted = some [a] →
      a.startsAt = timeUnix t) := by
  constructor
  · intro cfg now p postResp ht
    rw [handle_some]
    cases hts : strLookup p.result "_time" with
    | none =>
      rw [handleParsed_time_none cfg p postResp hts]
      exact ⟨rfl, rfl⟩
    | some s =>
      have hpi : parseInt64 s = none := by
        unfold timeOf at ht
        rw [hts] at ht
        simpa using ht
      rw [handleParsed_bad_int cfg p postResp s hts hpi]
      exact ⟨rfl, rfl⟩
  · intro cfg now p postResp t a ht h
    obtain ⟨s, t', hts, hpi, hcase⟩ := posted_shape cfg now p postResp a h
    have ht' : timeOf p.result = some t' := by
      unfold timeOf
      rw [hts]
      simpa using hpi
    have htt : t' = t := Option.some.inj (ht'.symm.trans ht)
    subst htt
    rcases hcase with ⟨he, ha⟩ | ⟨d, hd, ha⟩ <;> (rw [ha]; rfl)

/-- Witness for C10's amended statement: a result set with no `_time` entry
is rejected with 400 and no POST. -/
theorem c10_amended_witness :
    (handleSplunkWebhook cfg0 0 (some pNoTime) (some (200, "ok"))).response.status = 400
    ∧ (handleSplunkWebhook cfg0 0 (some pNoTime) (some (200, "ok"))).posted = none :=
  c10_amended.1 cfg0 0 pNoTime (some (200, "ok")) rfl

end Splunk2am
